import Mathlib

/-!
Verification development for the funding-rate arbitrage engine in
`src/binance.py` (binance-mcp).  The scanning and execution logic is
shallowly embedded over exact rationals; the HTTP collaborators
(price / balance / funding-rate / volume fetches and order placement)
are passed in as explicit oracle arguments, `Option`/sum results
standing for their non-200 or malformed outcomes.
-/

namespace Binance

/-- Python `round(x, ndigits)` on an exact decimal value: round half to
even at `ndigits` decimal digits.  (CPython rounds the binary double;
on the exactly representable decimal values arising in the claims the
two agree.) -/
def pyRound (ndigits : ℕ) (q : ℚ) : ℚ :=
  let p : ℚ := (10 : ℚ) ^ ndigits
  let s : ℚ := q * p
  let f : ℤ := ⌊s⌋
  let frac : ℚ := s - (f : ℚ)
  let n : ℤ :=
    if frac < 1/2 then f
    else if 1/2 < frac then f + 1
    else if f % 2 = 0 then f else f + 1
  (n : ℚ) / p

/-- The `same_dir` count of `find_arbitrage_pairs` (src/binance.py:355):
number of history samples whose sign strictly matches the sign of the
current rate. -/
def same_dir (current_rate : ℚ) (rates : List ℚ) : ℕ :=
  rates.countP (fun r => decide ((0 < r ∧ 0 < current_rate) ∨ (r < 0 ∧ current_rate < 0)))

/-- The stability score of `find_arbitrage_pairs` (src/binance.py:356):
`same_dir / len(rates) if rates else 0`. -/
def stability (current_rate : ℚ) (rates : List ℚ) : ℚ :=
  if rates.isEmpty then 0
  else (same_dir current_rate rates : ℚ) / (rates.length : ℚ)

theorem same_dir_le_length (r : ℚ) (h : List ℚ) : same_dir r h ≤ h.length :=
  List.countP_le_length _

/-- C3: the stability score lies in [0,1]; it is 0 on the empty history;
on a nonempty history in which every sample strictly shares the sign of
the reference rate it is 1; and in general it is the count of
sign-matching samples divided by the history length (the empty-history
clause of the claim fixes the value 0 there, so the all-aligned clause
is read on nonempty histories). -/
theorem stability_spec (r : ℚ) (h : List ℚ) :
    (0 ≤ stability r h ∧ stability r h ≤ 1) ∧
    stability r [] = 0 ∧
    (h ≠ [] → (∀ x ∈ h, (0 < x ∧ 0 < r) ∨ (x < 0 ∧ r < 0)) → stability r h = 1) ∧
    stability r h = (same_dir r h : ℚ) / (h.length : ℚ) := by
  have hdiv : stability r h = (same_dir r h : ℚ) / (h.length : ℚ) := by
    unfold stability
    rcases h with _ | ⟨a, t⟩
    · simp [same_dir]
    · simp
  refine ⟨⟨?_, ?_⟩, by simp [stability], ?_, hdiv⟩
  · rw [hdiv]
    exact div_nonneg (by positivity) (by positivity)
  · rw [hdiv]
    rcases h with _ | ⟨a, t⟩
    · simp
    · have hpos : (0 : ℚ) < ((a :: t).length : ℚ) := by
        exact_mod_cast t.length.succ_pos
      rw [div_le_one hpos]
      exact_mod_cast same_dir_le_length r (a :: t)
  · intro hne hall
    have hlen : (0 : ℚ) < (h.length : ℚ) := by
      have : 0 < h.length := List.length_pos.mpr hne
      exact_mod_cast this
    have hcount : same_dir r h = h.length := by
      unfold same_dir
      rw [List.countP_eq_length]
      intro a ha
      exact decide_eq_true (hall a ha)
    rw [hdiv, hcount, div_self (ne_of_gt hlen)]

/-- Witness for `stability_spec` at a concrete all-aligned history. -/
theorem stability_spec_witness :
    stability (1/100) [1/200, 3/100] = 1 :=
  (stability_spec (1/100) [1/200, 3/100]).2.2.1 (by simp)
    (by intro x hx
        rcases List.mem_pair.mp hx with rfl | rfl <;> norm_num)

/-- One entry of the batched premiumIndex response (src/binance.py:338-341):
a symbol together with its parsed `lastFundingRate`. -/
structure PremiumIndexEntry where
  symbol : String
  lastFundingRate : ℚ
deriving DecidableEq, Repr

/-- One row of `find_arbitrage_pairs`'s output (src/binance.py:365-370). -/
structure Candidate where
  symbol : String
  current_funding_rate : ℚ
  avg_volume : ℚ
  stability : ℚ
deriving DecidableEq, Repr

/-- The parameters of `find_arbitrage_pairs` (src/binance.py:312-316). -/
structure ScanParams where
  min_funding_rate : ℚ
  min_avg_volume : ℚ
  history_days : ℕ
  stability_threshold : ℚ
deriving DecidableEq, Repr

/-- The defaults of `find_arbitrage_pairs` (src/binance.py:313-316). -/
def defaultScanParams : ScanParams :=
  ⟨0.0005, 1000000, 7, 0.8⟩

/-- The loop body of `find_arbitrage_pairs` for one premiumIndex entry
(src/binance.py:339-370).  `fetchHistory symbol limit` is the funding-rate
history call with the given `limit` (`none` = non-200), already parsed to
the list of rates; `fetchVolume` is the 24hr-ticker call, parsed to its
`quoteVolume` (`none` = non-200).  A failed per-symbol fetch, like a
rate below the threshold or a failed admission test, yields no candidate. -/
def processPair (p : ScanParams)
    (fetchHistory : String → ℕ → Option (List ℚ))
    (fetchVolume : String → Option ℚ)
    (pair : PremiumIndexEntry) : Option Candidate :=
  if |pair.lastFundingRate| < p.min_funding_rate then none
  else
    match fetchHistory pair.symbol (p.history_days * 3) with
    | none => none
    | some rates =>
      let stab := stability pair.lastFundingRate rates
      match fetchVolume pair.symbol with
      | none => none
      | some volume =>
        if p.min_avg_volume < volume ∧ p.stability_threshold ≤ stab then
          some ⟨pair.symbol, pair.lastFundingRate, volume, pyRound 2 stab⟩
        else none

/-- The sort relation of src/binance.py:375: Python's stable `sorted` with
key `-abs(current_funding_rate)` orders `a` before `b` exactly when
`|b.rate| ≤ |a.rate|` (descending absolute rate). -/
def rateGe (a b : Candidate) : Prop :=
  |b.current_funding_rate| ≤ |a.current_funding_rate|

instance : DecidableRel rateGe := fun a b =>
  inferInstanceAs (Decidable (|b.current_funding_rate| ≤ |a.current_funding_rate|))

instance : IsTotal Candidate rateGe :=
  ⟨fun _ _ => le_total _ _⟩

instance : IsTrans Candidate rateGe :=
  ⟨fun _ _ _ h₁ h₂ => le_trans h₂ h₁⟩

/-- Strict version of `rateGe`, used to pin down the sort output when
absolute rates are pairwise distinct. -/
def rateGt (a b : Candidate) : Prop :=
  |b.current_funding_rate| < |a.current_funding_rate|

instance : IsAntisymm Candidate rateGt :=
  ⟨fun _ _ h₁ h₂ => absurd h₂ (not_lt_of_gt h₁)⟩

/-- Embedding of `find_arbitrage_pairs` (src/binance.py:311-375).  `premiumIndex` is the
batched funding-rate call (`none` = non-200, aborting the scan with the
error payload of line 336).  Python's `sorted` is a stable sort, modelled
by `List.insertionSort` (any stable sort produces the same list). -/
def find_arbitrage_pairs (p : ScanParams)
    (premiumIndex : Option (List PremiumIndexEntry))
    (fetchHistory : String → ℕ → Option (List ℚ))
    (fetchVolume : String → Option ℚ) : Except String (List Candidate) :=
  match premiumIndex with
  | none => Except.error ("Failed to fetch current funding data")
  | some pairs =>
      Except.ok (List.insertionSort rateGe
        (pairs.filterMap (processPair p fetchHistory fetchVolume)))

/-! ### Hedge executor (src/binance.py:225-308) -/

/-- Order side. -/
inductive Side
  | buy
  | sell
deriving DecidableEq, Repr

/-- Which market an order call targets: `place_market_order` (spot) or
`place_futures_order` (futures). -/
inductive Venue
  | spot
  | futures
deriving DecidableEq, Repr

/-- One observable step of `execute_hedge_arbitrage_strategy`: an order
call (with the outcome the order client returned for it) or the fixed
10-second holding sleep of src/binance.py:260. -/
inductive Event
  | order (venue : Venue) (side : Side) (ok : Bool)
  | hold
deriving DecidableEq, Repr

/-- The `get_account_balance` payload as seen by the executor's
pre-flight (src/binance.py:238-242): a payload whose `balance` field
parses to a number, a payload without a `balance` field (an error
payload, say — `.get("balance", 0)` yields `0`), or a payload whose
`balance` field makes `float` raise (caught, yielding `0`). -/
inductive BalanceResult
  | payload (balance : ℚ)
  | missingField
  | unparseable
deriving DecidableEq, Repr

/-- The `available_balance` of src/binance.py:239-242. -/
def available_balance : BalanceResult → ℚ
  | .payload b => b
  | .missingField => 0
  | .unparseable => 0

/-- The collaborator responses one run of
`execute_hedge_arbitrage_strategy` consumes: the balance payload, the
most recent funding rate (line 249), the spot price (line 251), and the
outcome the order client reports for each order call.  The code never
reads an order call's result, so `order_ok` only feeds the trace. -/
structure ExecEnv where
  balance_result : BalanceResult
  funding_rate : ℚ
  spot_price : ℚ
  order_ok : Venue → Side → Bool

/-- The `actual_quantity` of src/binance.py:244:
`min(float(quantity), available_balance) if available_balance > 0 else 0`. -/
def actual_quantity (env : ExecEnv) (quantity : ℚ) : ℚ :=
  if 0 < available_balance env.balance_result then
    min quantity (available_balance env.balance_result)
  else 0

/-- Constant `SPOT_FEE` (src/binance.py:269). -/
def SPOT_FEE : ℚ := 0.001

/-- Constant `FUTURES_FEE` (src/binance.py:270). -/
def FUTURES_FEE : ℚ := 0.0002

/-- The success payload of src/binance.py:275-279 (the human-readable
`message` string, a formatting of `net_profit`, is not modelled). -/
structure ExecResult where
  net_profit : ℚ
  fees : ℚ
deriving DecidableEq, Repr

/-- Python `symbol.replace("USDT", "")` (src/binance.py:237): delete every
(non-overlapping, left-to-right) occurrence of `"USDT"`. -/
def replaceUSDT : List Char → List Char
  | 'U' :: 'S' :: 'D' :: 'T' :: rest => replaceUSDT rest
  | c :: rest => c :: replaceUSDT rest
  | [] => []

/-- The collateral asset resolved from the symbol (src/binance.py:237). -/
def asset_of (symbol : String) : String :=
  ⟨replaceUSDT symbol.data⟩

/-- Embedding of `execute_hedge_arbitrage_strategy` (src/binance.py:226-279), returning
the value the function returns together with the trace of order calls and
the holding sleep, in execution order.  Order-call outcomes are recorded
in the trace but — exactly as in the source, which ignores the values of
lines 254-267 — never influence control flow or the returned value. -/
def execute_hedge_arbitrage_strategy (env : ExecEnv) (symbol : String) (quantity : ℚ) :
    Except String ExecResult × List Event :=
  let asset := asset_of symbol
  let aq := actual_quantity env quantity
  if aq ≤ 0 then
    (Except.error ("Insufficient " ++ asset ++ " balance."), [])
  else
    let funding_rate := env.funding_rate
    let spot_price := env.spot_price
    let openLegs : List Event :=
      if 0 < funding_rate then
        [.order .spot .buy (env.order_ok .spot .buy),
         .order .futures .sell (env.order_ok .futures .sell)]
      else
        [.order .spot .sell (env.order_ok .spot .sell),
         .order .futures .buy (env.order_ok .futures .buy)]
    let closeLegs : List Event :=
      if 0 < funding_rate then
        [.order .futures .buy (env.order_ok .futures .buy),
         .order .spot .sell (env.order_ok .spot .sell)]
      else
        [.order .futures .sell (env.order_ok .futures .sell),
         .order .spot .buy (env.order_ok .spot .buy)]
    let fee := spot_price * aq * SPOT_FEE * 2 + spot_price * aq * FUTURES_FEE * 2
    let profit := |funding_rate| * spot_price * aq
    let net_profit := profit - fee
    (Except.ok ⟨pyRound 4 net_profit, pyRound 4 fee⟩,
     openLegs ++ [Event.hold] ++ closeLegs)

/-! ### get_symbol_price and its cache (src/binance.py:26-44) -/

/-- The `@lru_cache(maxsize=100)` wrapper around `get_symbol_price`
(src/binance.py:27-28), state threaded explicitly: the cache is a list of
(symbol, previously returned price) entries, most recently used first.
`fetch` is the ticker call at the moment of this invocation (its success
path, src/binance.py:40-43).  On a hit the cached value is returned and
refreshed as most recently used; on a miss the fetched value is cached,
evicting the least recently used entry once 100 entries are exceeded. -/
def get_symbol_price (fetch : String → ℚ) (cache : List (String × ℚ))
    (symbol : String) : ℚ × List (String × ℚ) :=
  match cache.lookup symbol with
  | some p => (p, (symbol, p) :: cache.eraseP (fun e => e.1 == symbol))
  | none =>
      let p := fetch symbol
      let cache₂ := (symbol, p) :: cache
      (p, if 100 < cache₂.length then cache₂.dropLast else cache₂)

/-! ### Executor theorems -/

/-- C2: pre-flight of the hedge executor.  When the available balance is
positive, the executed quantity is `min(requestedQuantity, availableBalance)`;
when the available balance, or the resulting quantity, is not positive, the
call returns the InsufficientBalance error and the trace is empty — zero
order calls are made. -/
theorem hedge_preflight_spec (env : ExecEnv) (symbol : String) (q : ℚ) :
    (0 < available_balance env.balance_result →
      actual_quantity env q = min q (available_balance env.balance_result)) ∧
    (available_balance env.balance_result ≤ 0 ∨ actual_quantity env q ≤ 0 →
      execute_hedge_arbitrage_strategy env symbol q =
        (Except.error ("Insufficient " ++ asset_of symbol ++ " balance."), [])) := by
  constructor
  · intro h
    unfold actual_quantity
    rw [if_pos h]
  · intro h
    have haq : actual_quantity env q ≤ 0 := by
      rcases h with h | h
      · unfold actual_quantity
        rw [if_neg (not_lt.mpr h)]
      · exact h
    simp [execute_hedge_arbitrage_strategy, haq]

/-- Witness for `hedge_preflight_spec`: balance 0 with requested quantity 1
is rejected with no order calls; balance 0.5 caps requested quantity 2
at 0.5. -/
theorem hedge_preflight_spec_witness :
    execute_hedge_arbitrage_strategy
        ⟨.payload 0, 1/1000, 100, fun _ _ => true⟩ "BTCUSDT" 1 =
      (Except.error ("Insufficient BTC balance."), []) ∧
    actual_quantity ⟨.payload 0.5, 1/1000, 100, fun _ _ => true⟩ 2 = 0.5 := by
  constructor
  · rw [(hedge_preflight_spec ⟨.payload 0, 1/1000, 100, fun _ _ => true⟩
        "BTCUSDT" 1).2 (Or.inl (by norm_num [available_balance]))]
    rfl
  · rw [(hedge_preflight_spec ⟨.payload 0.5, 1/1000, 100, fun _ _ => true⟩
        "BTCUSDT" 2).1 (by norm_num [available_balance])]
    norm_num [available_balance, min_def]

/-- C10: a balance lookup that fails (error payload without a `balance`
field) or whose `balance` field does not parse is treated as balance
exactly 0, so the call returns the InsufficientBalance error with zero
order calls — never a distinct data-unavailable error. -/
theorem hedge_balance_fetch_failure (env : ExecEnv) (symbol : String) (q : ℚ)
    (h : env.balance_result = .missingField ∨ env.balance_result = .unparseable) :
    available_balance env.balance_result = 0 ∧
    execute_hedge_arbitrage_strategy env symbol q =
      (Except.error ("Insufficient " ++ asset_of symbol ++ " balance."), []) := by
  have hz : available_balance env.balance_result = 0 := by
    rcases h with h | h <;> rw [h] <;> rfl
  have haq : actual_quantity env q ≤ 0 := by
    unfold actual_quantity
    rw [hz]
    norm_num
  exact ⟨hz, by simp [execute_hedge_arbitrage_strategy, haq]⟩

/-- Witness for `hedge_balance_fetch_failure`: an unparseable balance
payload yields the InsufficientBalance error and no order calls. -/
theorem hedge_balance_fetch_failure_witness :
    execute_hedge_arbitrage_strategy
        ⟨.unparseable, 1/1000, 100, fun _ _ => true⟩ "ETHUSDT" 3 =
      (Except.error ("Insufficient ETH balance."), []) := by
  rw [(hedge_balance_fetch_failure ⟨.unparseable, 1/1000, 100, fun _ _ => true⟩
      "ETHUSDT" 3 (Or.inr rfl)).2]
  rfl

/-- C8: leg directions and step order.  With a positive funding rate the
open is long spot then short futures and the close is the futures leg
(buy side) then the spot leg; with a non-positive rate the directions
mirror; in both cases the trace is exactly: opening spot leg, opening
futures leg, holding interval, closing futures leg, closing spot leg. -/
theorem hedge_leg_order (env : ExecEnv) (symbol : String) (q : ℚ)
    (h : 0 < actual_quantity env q) :
    (execute_hedge_arbitrage_strategy env symbol q).2 =
      if 0 < env.funding_rate then
        [.order .spot .buy (env.order_ok .spot .buy),
         .order .futures .sell (env.order_ok .futures .sell),
         .hold,
         .order .futures .buy (env.order_ok .futures .buy),
         .order .spot .sell (env.order_ok .spot .sell)]
      else
        [.order .spot .sell (env.order_ok .spot .sell),
         .order .futures .buy (env.order_ok .futures .buy),
         .hold,
         .order .futures .sell (env.order_ok .futures .sell),
         .order .spot .buy (env.order_ok .spot .buy)] := by
  have h' : ¬ actual_quantity env q ≤ 0 := not_le.mpr h
  by_cases hf : 0 < env.funding_rate <;>
    simp [execute_hedge_arbitrage_strategy, h', hf]

/-- Witness for `hedge_leg_order` at a positive funding rate. -/
theorem hedge_leg_order_witness :
    (execute_hedge_arbitrage_strategy
        ⟨.payload 2, 1/1000, 100, fun _ _ => true⟩ "BTCUSDT" 1).2 =
      [.order .spot .buy true, .order .futures .sell true, .hold,
       .order .futures .buy true, .order .spot .sell true] := by
  rw [hedge_leg_order ⟨.payload 2, 1/1000, 100, fun _ _ => true⟩ "BTCUSDT" 1
    (by norm_num [actual_quantity, available_balance, min_def])]
  rw [if_pos (by norm_num : (0:ℚ) < 1/1000)]

/-- C4: profit accounting of a completed execution.  The returned payload
is exactly `fees = spotPrice*q*SPOT_FEE*2 + spotPrice*q*FUTURES_FEE*2`
and `net_profit = |fundingRate|*spotPrice*q - fees`, each rounded to 4
decimal digits; a negative net profit is reported as such. -/
theorem hedge_profit_accounting (env : ExecEnv) (symbol : String) (q : ℚ)
    (h : 0 < actual_quantity env q) :
    (execute_hedge_arbitrage_strategy env symbol q).1 =
      Except.ok
        ⟨pyRound 4 (|env.funding_rate| * env.spot_price * actual_quantity env q -
            (env.spot_price * actual_quantity env q * SPOT_FEE * 2 +
             env.spot_price * actual_quantity env q * FUTURES_FEE * 2)),
         pyRound 4 (env.spot_price * actual_quantity env q * SPOT_FEE * 2 +
             env.spot_price * actual_quantity env q * FUTURES_FEE * 2)⟩ := by
  have h' : ¬ actual_quantity env q ≤ 0 := not_le.mpr h
  simp [execute_hedge_arbitrage_strategy, h']

/-- Witness for `hedge_profit_accounting`: spot price 100, quantity 1,
funding rate 0.001 give fees 0.24 and net profit -0.14 (reported
negative, not clamped). -/
theorem hedge_profit_accounting_witness :
    (execute_hedge_arbitrage_strategy
        ⟨.payload 1, 0.001, 100, fun _ _ => true⟩ "BTCUSDT" 1).1 =
      Except.ok ⟨-0.14, 0.24⟩ := by
  rw [hedge_profit_accounting ⟨.payload 1, 0.001, 100, fun _ _ => true⟩ "BTCUSDT" 1
    (by norm_num [actual_quantity, available_balance, min_def])]
  norm_num [actual_quantity, available_balance, min_def, SPOT_FEE, FUTURES_FEE,
    pyRound, abs_of_pos]

/-- Environment in which the order client fails exactly the opening
futures leg of a positive-funding-rate execution (futures sell) and
succeeds elsewhere. -/
def failFuturesOpenEnv : ExecEnv :=
  ⟨BalanceResult.payload 1, 0.001, 100,
   fun v s =>
     match v, s with
     | Venue.futures, Side.sell => false
     | _, _ => true⟩

/-- C1 counterexample: with the order client failing the opening futures
leg, the executor still performs both closing-leg order calls and returns
the success payload — it neither stops nor reports the failed leg. -/
theorem hedge_failure_ignored_counterexample :
    (execute_hedge_arbitrage_strategy failFuturesOpenEnv ("BTCUSDT") 1).2 =
      [.order .spot .buy true, .order .futures .sell false, .hold,
       .order .futures .buy true, .order .spot .sell true] ∧
    (execute_hedge_arbitrage_strategy failFuturesOpenEnv ("BTCUSDT") 1).1.isOk = true := by
  constructor <;>
    norm_num [execute_hedge_arbitrage_strategy, failFuturesOpenEnv,
      actual_quantity, available_balance, min_def, Except.isOk, Except.toBool]

/-- C1 amended: the executor ignores order-call outcomes entirely: whenever
pre-flight passes, whatever outcomes the order client returns (including a
failure at the opening futures leg), the returned value is the success
payload and the two closing-leg calls (futures first, then spot) are still
made. -/
theorem hedge_continues_past_failures (env : ExecEnv) (symbol : String) (q : ℚ)
    (h : 0 < actual_quantity env q) :
    (execute_hedge_arbitrage_strategy env symbol q).1.isOk = true ∧
    (execute_hedge_arbitrage_strategy env symbol q).2.drop 3 =
      (if 0 < env.funding_rate then
        [Event.order .futures .buy (env.order_ok .futures .buy),
         Event.order .spot .sell (env.order_ok .spot .sell)]
      else
        [Event.order .futures .sell (env.order_ok .futures .sell),
         Event.order .spot .buy (env.order_ok .spot .buy)]) := by
  have h' : ¬ actual_quantity env q ≤ 0 := not_le.mpr h
  constructor
  · simp [execute_hedge_arbitrage_strategy, h', Except.isOk, Except.toBool]
  · by_cases hf : 0 < env.funding_rate <;>
      simp [execute_hedge_arbitrage_strategy, h', hf]

/-- Witness for `hedge_continues_past_failures` in the environment whose
opening futures leg fails. -/
theorem hedge_continues_past_failures_witness :
    (execute_hedge_arbitrage_strategy failFuturesOpenEnv ("BTCUSDT") 1).1.isOk = true ∧
    (execute_hedge_arbitrage_strategy failFuturesOpenEnv ("BTCUSDT") 1).2.drop 3 =
      [Event.order .futures .buy true, Event.order .spot .sell true] := by
  have h := hedge_continues_past_failures failFuturesOpenEnv ("BTCUSDT") 1
    (by norm_num [actual_quantity, available_balance, min_def, failFuturesOpenEnv])
  refine ⟨h.1, ?_⟩
  rw [h.2, if_pos (by norm_num [failFuturesOpenEnv] : (0:ℚ) < failFuturesOpenEnv.funding_rate)]
  rfl

/-! ### Scanner theorems -/

/-- C5: per-symbol admission.  For a symbol whose detail fetches succeed,
the symbol is admitted exactly when `minFundingRate ≤ |rate|`,
`minAvgVolume < volume` and `stabilityThreshold ≤ stability` all hold
(excluded when any fails); and the scan's output consists exactly of the
admitted candidates. -/
theorem scanner_admission (p : ScanParams)
    (fh : String → ℕ → Option (List ℚ)) (fv : String → Option ℚ)
    (pair : PremiumIndexEntry) (rates : List ℚ) (v : ℚ)
    (hh : fh pair.symbol (p.history_days * 3) = some rates)
    (hv : fv pair.symbol = some v) :
    processPair p fh fv pair =
      (if p.min_funding_rate ≤ |pair.lastFundingRate| ∧ p.min_avg_volume < v ∧
          p.stability_threshold ≤ stability pair.lastFundingRate rates then
        some ⟨pair.symbol, pair.lastFundingRate, v,
          pyRound 2 (stability pair.lastFundingRate rates)⟩
      else none) ∧
    (∀ pairs cs, find_arbitrage_pairs p (some pairs) fh fv = Except.ok cs →
      ∀ c : Candidate, c ∈ cs ↔ c ∈ pairs.filterMap (processPair p fh fv)) := by
  constructor
  · simp only [processPair, hh, hv]
    by_cases h1 : |pair.lastFundingRate| < p.min_funding_rate
    · rw [if_pos h1, if_neg]
      rintro ⟨h2, -⟩
      exact absurd h1 (not_lt.mpr h2)
    · have h1' := not_lt.mp h1
      rw [if_neg h1]
      by_cases h2 : p.min_avg_volume < v ∧
          p.stability_threshold ≤ stability pair.lastFundingRate rates
      · rw [if_pos h2, if_pos ⟨h1', h2.1, h2.2⟩]
      · rw [if_neg h2, if_neg]
        rintro ⟨-, h3, h4⟩
        exact h2 ⟨h3, h4⟩
  · intro pairs cs hok c
    simp only [find_arbitrage_pairs, Except.ok.injEq] at hok
    rw [← hok]
    exact List.mem_insertionSort rateGe

/-- Witness for `scanner_admission`: a symbol meeting all three
thresholds is admitted with its fetched values. -/
theorem scanner_admission_witness :
    processPair defaultScanParams (fun _ _ => some [1/100]) (fun _ => some 2000000)
      ⟨"BTCUSDT", 1/100⟩ = some ⟨"BTCUSDT", 1/100, 2000000, 1⟩ := by
  rw [(scanner_admission defaultScanParams (fun _ _ => some [1/100])
      (fun _ => some 2000000) ⟨"BTCUSDT", 1/100⟩ [1/100] 2000000 rfl rfl).1]
  rw [if_pos]
  · norm_num [stability, same_dir, List.countP_cons, List.countP_nil,
      decide_eq_true_eq, pyRound]
  · refine ⟨by norm_num [defaultScanParams, abs_of_pos], by norm_num [defaultScanParams], ?_⟩
    norm_num [defaultScanParams, stability, same_dir, List.countP_cons,
      List.countP_nil, decide_eq_true_eq]

/-- C7: failure propagation of the scan.  The scan returns the
data-unavailable error exactly when the batched premiumIndex fetch fails
(with no partial results); whenever that fetch succeeds the scan returns
a normal candidate list, and a failed per-symbol detail fetch (history or
24h volume) merely removes that symbol, leaving the scan of the remaining
symbols unchanged. -/
theorem scan_failure_policy (p : ScanParams)
    (fh : String → ℕ → Option (List ℚ)) (fv : String → Option ℚ) :
    find_arbitrage_pairs p none fh fv =
      Except.error ("Failed to fetch current funding data") ∧
    (∀ pairs, ∃ cs, find_arbitrage_pairs p (some pairs) fh fv = Except.ok cs) ∧
    (∀ l₁ l₂ pair, fh pair.symbol (p.history_days * 3) = none ∨ fv pair.symbol = none →
      find_arbitrage_pairs p (some (l₁ ++ pair :: l₂)) fh fv =
        find_arbitrage_pairs p (some (l₁ ++ l₂)) fh fv) := by
  refine ⟨rfl, fun pairs => ⟨_, rfl⟩, ?_⟩
  intro l₁ l₂ pair hfail
  have hnone : processPair p fh fv pair = none := by
    rcases hfail with h | h
    · simp [processPair, h]
    · cases hh : fh pair.symbol (p.history_days * 3) with
      | none => simp [processPair, hh]
      | some rates => simp [processPair, hh, h]
  simp [find_arbitrage_pairs, List.filterMap_append, List.filterMap_cons, hnone]

/-- Witness for `scan_failure_policy`: a symbol whose history fetch fails
is silently dropped from the scan. -/
theorem scan_failure_policy_witness :
    find_arbitrage_pairs defaultScanParams (some [⟨"BTCUSDT", 1/100⟩])
        (fun _ _ => none) (fun _ => some 0) =
      find_arbitrage_pairs defaultScanParams (some [])
        (fun _ _ => none) (fun _ => some 0) :=
  (scan_failure_policy defaultScanParams (fun _ _ => none)
    (fun _ => some 0)).2.2 [] [] ⟨"BTCUSDT", 1/100⟩ (Or.inl rfl)

/-- Fetches for the tied-rate counterexample: every symbol has funding
history [0.01] and 24h volume 2,000,000. -/
def tieFetchHistory : String → ℕ → Option (List ℚ) :=
  fun _ _ => some [1/100]

/-- Volume fetch for the tied-rate counterexample. -/
def tieFetchVolume : String → Option ℚ :=
  fun _ => some 2000000

/-- C6 counterexample: two admitted symbols with tied |rate| (both 0.01):
permuting the order in which they are fetched permutes the output (the
stable sort keeps arrival order among ties), so the final ranked sequence
is not invariant under permuting the fetch order. -/
theorem scanner_fetch_order_counterexample :
    find_arbitrage_pairs defaultScanParams (some [⟨"AAAUSDT", 1/100⟩, ⟨"BBBUSDT", 1/100⟩])
        tieFetchHistory tieFetchVolume ≠
      find_arbitrage_pairs defaultScanParams (some [⟨"BBBUSDT", 1/100⟩, ⟨"AAAUSDT", 1/100⟩])
        tieFetchHistory tieFetchVolume := by
  norm_num [find_arbitrage_pairs, processPair, tieFetchHistory, tieFetchVolume,
    defaultScanParams, stability, same_dir, List.countP_cons, List.countP_nil,
    decide_eq_true_eq, abs_of_pos, pyRound, List.filterMap_cons, rateGe,
    List.insertionSort, List.orderedInsert, Candidate.mk.injEq]
  exact fun h => absurd h (by decide)

/-- C6 amended: the scan output is always sorted by descending absolute
current funding rate, and — whenever the admitted candidates have pairwise
distinct absolute rates — it is invariant under permuting the order in
which symbols are fetched; tied candidates keep their (deterministic)
fetch order, by stability of the sort. -/
theorem scanner_sorted_and_order_independent (p : ScanParams)
    (fh : String → ℕ → Option (List ℚ)) (fv : String → Option ℚ)
    (l₁ l₂ : List PremiumIndexEntry) (hperm : l₁.Perm l₂)
    (hdist : (l₁.filterMap (processPair p fh fv)).Pairwise
      (fun a b => |a.current_funding_rate| ≠ |b.current_funding_rate|)) :
    (∀ pairs cs, find_arbitrage_pairs p (some pairs) fh fv = Except.ok cs →
      cs.Sorted rateGe) ∧
    find_arbitrage_pairs p (some l₁) fh fv =
      find_arbitrage_pairs p (some l₂) fh fv := by
  constructor
  · intro pairs cs hok
    simp only [find_arbitrage_pairs, Except.ok.injEq] at hok
    rw [← hok]
    exact List.sorted_insertionSort rateGe _
  · have hfm : (l₁.filterMap (processPair p fh fv)).Perm
        (l₂.filterMap (processPair p fh fv)) := hperm.filterMap _
    have hA := List.perm_insertionSort rateGe (l₁.filterMap (processPair p fh fv))
    have hB := List.perm_insertionSort rateGe (l₂.filterMap (processPair p fh fv))
    have hAB := (hA.trans hfm).trans hB.symm
    have hsym : ∀ {x y : Candidate},
        |x.current_funding_rate| ≠ |y.current_funding_rate| →
        |y.current_funding_rate| ≠ |x.current_funding_rate| :=
      fun h => h.symm
    have hdistA := (hA.pairwise_iff hsym).mpr hdist
    have hdistB := ((hB.trans hfm.symm).pairwise_iff hsym).mpr hdist
    have hstrictA : (List.insertionSort rateGe
        (l₁.filterMap (processPair p fh fv))).Pairwise rateGt :=
      ((List.sorted_insertionSort rateGe _).and hdistA).imp
        (fun h => lt_of_le_of_ne h.1 h.2.symm)
    have hstrictB : (List.insertionSort rateGe
        (l₂.filterMap (processPair p fh fv))).Pairwise rateGt :=
      ((List.sorted_insertionSort rateGe _).and hdistB).imp
        (fun h => lt_of_le_of_ne h.1 h.2.symm)
    simp only [find_arbitrage_pairs]
    exact congrArg Except.ok (List.eq_of_perm_of_sorted hAB hstrictA hstrictB)

/-- Witness for `scanner_sorted_and_order_independent`: two admitted
symbols with distinct absolute rates produce the same ranked output in
either fetch order. -/
theorem scanner_sorted_and_order_independent_witness :
    find_arbitrage_pairs defaultScanParams
        (some [⟨"AAAUSDT", 2/100⟩, ⟨"BBBUSDT", 1/100⟩]) tieFetchHistory tieFetchVolume =
      find_arbitrage_pairs defaultScanParams
        (some [⟨"BBBUSDT", 1/100⟩, ⟨"AAAUSDT", 2/100⟩]) tieFetchHistory tieFetchVolume := by
  refine (scanner_sorted_and_order_independent defaultScanParams tieFetchHistory
    tieFetchVolume [⟨"AAAUSDT", 2/100⟩, ⟨"BBBUSDT", 1/100⟩]
    [⟨"BBBUSDT", 1/100⟩, ⟨"AAAUSDT", 2/100⟩]
    (List.Perm.swap (⟨"BBBUSDT", 1/100⟩ : PremiumIndexEntry)
      (⟨"AAAUSDT", 2/100⟩ : PremiumIndexEntry) []) ?_).2
  norm_num [processPair, tieFetchHistory, tieFetchVolume, defaultScanParams,
    stability, same_dir, List.countP_cons, List.countP_nil, decide_eq_true_eq,
    abs_of_pos, List.filterMap_cons, List.pairwise_cons]

/-- C9 (code bug): `get_symbol_price` is wrapped in `@lru_cache`, so its
result does persist across calls: with the collaborator quoting 100 at the
first call and 200 at the second, the second call for the same symbol
returns the stale cached 100, not the collaborator's current 200. -/
theorem get_symbol_price_stale_cache :
    (get_symbol_price (fun _ => 100) [] "BTCUSDT").1 = 100 ∧
    (get_symbol_price (fun _ => 200)
        (get_symbol_price (fun _ => 100) [] "BTCUSDT").2 ("BTCUSDT")).1 = 100 ∧
    (get_symbol_price (fun _ => 200)
        (get_symbol_price (fun _ => 100) [] "BTCUSDT").2 ("BTCUSDT")).1 ≠ 200 := by
  refine ⟨rfl, rfl, ?_⟩
  norm_num [get_symbol_price, List.lookup]

end Binance
